import Mathlib

/-!
Verification of the gnps-calour annotation matcher.

Shallow embedding of `gnpscalour/gnpscalour.py` (package version) and
`gnpscalour.py` (legacy single-file version).  The pandas reference table
becomes a list of rows; the numeric columns `parent mass` and `RTMean`
(after the `pd.to_numeric(..., errors='coerce')` coercion performed by
`GNPS.__init__`) become `Option ℚ`, where `none` models NaN.  The remaining
columns are string-valued fields stored as an association list.  numpy
index arrays become `List Nat`.  A raised Python exception becomes
`Except.error`; a call of `logger.warn`/`logger.warning` becomes a `warned`
flag in the result.
-/

namespace GnpsCalour

/-- Row of the GNPS reference table.  `parentMass` and `rtMean` model the
`parent mass` and `RTMean` columns after numeric coercion (`none` is NaN);
`strFields` holds the remaining string columns such as `LibraryID`,
`AllOrganisms`, `componentindex`, `ProteoSAFeClusterLink` and `AllFiles`. -/
structure GNPSRow where
  parentMass : Option ℚ
  rtMean : Option ℚ
  strFields : List (String × String)
  deriving Repr, DecidableEq

instance : Inhabited GNPSRow :=
  ⟨{ parentMass := some 0, rtMean := some 0, strFields := [] }⟩

/-- The GNPS reference table: the list of column names (`gnps_data.columns`)
and the ordered rows. -/
structure GNPSTable where
  columns : List String
  rows : List GNPSRow
  deriving Repr, DecidableEq

/-- Effective value of the `parent mass` cell, as seen by the matcher after
`fillna(0)`: a missing value reads as 0. -/
def rowMass (r : GNPSRow) : ℚ := r.parentMass.getD 0

/-- Effective value of the `RTMean` cell after `fillna(0)`. -/
def rowRt (r : GNPSRow) : ℚ := r.rtMean.getD 0

/-- One row after `gnps_data.fillna(0, inplace=True)`: missing numeric
values are replaced by 0, string fields are untouched. -/
def fillnaRow (r : GNPSRow) : GNPSRow :=
  { r with parentMass := some (r.parentMass.getD 0), rtMean := some (r.rtMean.getD 0) }

/-- The whole table after `fillna(0, inplace=True)`. -/
def fillna (t : GNPSTable) : GNPSTable :=
  { t with rows := t.rows.map fillnaRow }

/-- Core of `_find_close_annotation`: the numpy computation
`mzpos = np.where(|masses - mz| < mzerr)`, `rtpos = np.where(|rts - rt| < rterr)`,
`pos = np.intersect1d(mzpos, rtpos)`.  Both `np.where` results are sorted
duplicate-free index lists, so the sorted-unique intersection produced by
`np.intersect1d` is the filter of one by membership in the other. -/
def findCloseCore (rows : List GNPSRow) (mz rt mzerr rterr : ℚ) : List Nat :=
  let mzpos := (List.range rows.length).filter
    (fun i => decide (|rowMass (rows.getD i default) - mz| < mzerr))
  let rtpos := (List.range rows.length).filter
    (fun i => decide (|rowRt (rows.getD i default) - rt| < rterr))
  mzpos.filter (fun i => decide (i ∈ rtpos))

/-- Result of a `_find_close_annotation` call: the reference table afterwards
(it is mutated in place by `fillna`), the matched indices, and whether a
warning was logged. -/
structure FindResult where
  table : Option GNPSTable
  matchList : List Nat
  warned : Bool
  deriving Repr, DecidableEq

/-- `_find_close_annotation(mz, rt, mzerr, rterr)` of the package version.
The query coordinates are `Option ℚ`: `none` models a value on which
`float(...)` raises.  The `try` block converts `mz` and `rt` first, then
runs `fillna` on the table (raising `AttributeError` when `gnps_data` is
`None`), then matches; the bare `except` logs a warning and returns an
empty index array. -/
def findCloseAnn (table : Option GNPSTable) (mz rt : Option ℚ) (mzerr rterr : ℚ) :
    FindResult :=
  match mz, rt with
  | some m, some r =>
    match table with
    | some t =>
      { table := some (fillna t),
        matchList := findCloseCore (fillna t).rows m r mzerr rterr,
        warned := false }
    | none => { table := none, matchList := [], warned := true }
  | _, _ => { table := table, matchList := [], warned := true }

theorem rowMass_fillnaRow (r : GNPSRow) : rowMass (fillnaRow r) = rowMass r := by
  simp [rowMass, fillnaRow]

theorem rowRt_fillnaRow (r : GNPSRow) : rowRt (fillnaRow r) = rowRt r := by
  simp [rowRt, fillnaRow]

theorem fillnaRow_default : fillnaRow (default : GNPSRow) = default := by
  simp [fillnaRow, default]

theorem fillnaRow_fillnaRow (r : GNPSRow) : fillnaRow (fillnaRow r) = fillnaRow r := by
  simp [fillnaRow]

theorem getD_map_fillnaRow (rows : List GNPSRow) (i : Nat) :
    (rows.map fillnaRow).getD i default = fillnaRow (rows.getD i default) := by
  induction rows generalizing i with
  | nil => cases i <;> simp [fillnaRow_default]
  | cons a l ih =>
    cases i with
    | zero => simp
    | succ n => simpa only [List.map_cons, List.getD_cons_succ] using ih n

theorem fillna_rows (t : GNPSTable) : (fillna t).rows = t.rows.map fillnaRow := rfl

theorem fillna_fillna (t : GNPSTable) : fillna (fillna t) = fillna t := by
  simp [fillna, Function.comp, fillnaRow_fillnaRow]

theorem mem_findCloseCore (rows : List GNPSRow) (m r e f : ℚ) (i : Nat) :
    i ∈ findCloseCore rows m r e f ↔
      i < rows.length ∧ |rowMass (rows.getD i default) - m| < e ∧
        |rowRt (rows.getD i default) - r| < f := by
  simp only [findCloseCore, List.mem_filter, List.mem_range, decide_eq_true_eq]
  tauto

theorem nodup_findCloseCore (rows : List GNPSRow) (m r e f : ℚ) :
    (findCloseCore rows m r e f).Nodup := by
  exact ((List.nodup_range _).filter _).filter _

theorem findCloseCore_fillna (rows : List GNPSRow) (m r e f : ℚ) :
    findCloseCore (rows.map fillnaRow) m r e f = findCloseCore rows m r e f := by
  simp only [findCloseCore, List.length_map, getD_map_fillnaRow, rowMass_fillnaRow,
    rowRt_fillnaRow]

/-- C1: on a loaded table and parseable query, `_find_close_annotation`
returns, without warning and without duplicates, exactly the indices whose
(filled) mass is strictly within `mzerr` of the query mass and whose
(filled) retention time is strictly within `rterr` of the query retention
time; in particular an empty table yields an empty match list. -/
theorem find_matches_exact_window (t : GNPSTable) (m r e f : ℚ)
    (he : 0 < e) (hf : 0 < f) :
    (findCloseAnn (some t) (some m) (some r) e f).warned = false ∧
    (findCloseAnn (some t) (some m) (some r) e f).matchList.Nodup ∧
    (t.rows = [] → (findCloseAnn (some t) (some m) (some r) e f).matchList = []) ∧
    (∀ i, i ∈ (findCloseAnn (some t) (some m) (some r) e f).matchList ↔
      i < t.rows.length ∧ |rowMass (t.rows.getD i default) - m| < e ∧
        |rowRt (t.rows.getD i default) - r| < f) := by
  refine ⟨rfl, nodup_findCloseCore _ _ _ _ _, ?_, ?_⟩
  · intro hrows
    simp [findCloseAnn, fillna, findCloseCore, hrows]
  · intro i
    show i ∈ findCloseCore (fillna t).rows m r e f ↔ _
    rw [fillna_rows, findCloseCore_fillna, mem_findCloseCore]

/-- Sample reference row with well-formed numeric cells. -/
def sampleRow1 : GNPSRow :=
  { parentMass := some 100, rtMean := some 10,
    strFields := [("LibraryID", "LibA"), ("AllOrganisms", "OrgA"), ("componentindex", "3"),
      ("ProteoSAFeClusterLink", "http-a"), ("AllFiles", "abc:7###xyz")] }

/-- Sample reference row whose mass sits near a window boundary. -/
def sampleRow2 : GNPSRow :=
  { parentMass := some (201 / 2), rtMean := some 12,
    strFields := [("LibraryID", "N/A"), ("AllOrganisms", "OrgB"), ("componentindex", "4"),
      ("ProteoSAFeClusterLink", "http-b"), ("AllFiles", "abc:8###xyz")] }

/-- Sample reference row with a missing (NaN) mass cell. -/
def sampleRow3 : GNPSRow :=
  { parentMass := none, rtMean := some 50,
    strFields := [("LibraryID", "LibC"), ("AllOrganisms", "OrgC"), ("componentindex", "5"),
      ("ProteoSAFeClusterLink", "http-c"), ("AllFiles", "abc:7###z2")] }

/-- Sample three-row reference table. -/
def sampleTable : GNPSTable :=
  { columns := ["parent mass", "RTMean", "LibraryID", "AllOrganisms", "componentindex",
      "ProteoSAFeClusterLink", "AllFiles"],
    rows := [sampleRow1, sampleRow2, sampleRow3] }

/-- Witness for C1 at the sample table with query (100, 10) and tolerances (1, 5). -/
theorem find_matches_exact_window_witness :
    (0 : ℚ) < 1 ∧ (0 : ℚ) < 5 ∧
    ((findCloseAnn (some sampleTable) (some 100) (some 10) 1 5).warned = false ∧
    (findCloseAnn (some sampleTable) (some 100) (some 10) 1 5).matchList.Nodup ∧
    (sampleTable.rows = [] →
      (findCloseAnn (some sampleTable) (some 100) (some 10) 1 5).matchList = []) ∧
    (∀ i, i ∈ (findCloseAnn (some sampleTable) (some 100) (some 10) 1 5).matchList ↔
      i < sampleTable.rows.length ∧
        |rowMass (sampleTable.rows.getD i default) - 100| < 1 ∧
        |rowRt (sampleTable.rows.getD i default) - 10| < 5)) :=
  ⟨by norm_num, by norm_num,
    find_matches_exact_window sampleTable 100 10 1 5 (by norm_num) (by norm_num)⟩

/-- C3: when the query mass or retention time does not parse as a float, or
the reference table was never loaded, `_find_close_annotation` returns an
empty match list and logs a warning; the bare `except` means no exception
escapes (totality of the embedding). -/
theorem find_matches_error_empty (t : Option GNPSTable) (mz rt : Option ℚ) (e f : ℚ)
    (h : mz = none ∨ rt = none ∨ t = none) :
    (findCloseAnn t mz rt e f).matchList = [] ∧
    (findCloseAnn t mz rt e f).warned = true := by
  cases mz with
  | none => exact ⟨rfl, rfl⟩
  | some m =>
    cases rt with
    | none => exact ⟨rfl, rfl⟩
    | some r =>
      rcases h with h | h | h
      · exact absurd h (by simp)
      · exact absurd h (by simp)
      · subst h; exact ⟨rfl, rfl⟩

/-- Witness for C3 with an unparseable query mass against the sample table. -/
theorem find_matches_error_empty_witness :
    ((none : Option ℚ) = none ∨ (some (7 : ℚ)) = none ∨
      (some sampleTable : Option GNPSTable) = none) ∧
    ((findCloseAnn (some sampleTable) none (some 7) 1 5).matchList = [] ∧
      (findCloseAnn (some sampleTable) none (some 7) 1 5).warned = true) :=
  ⟨Or.inl rfl, find_matches_error_empty (some sampleTable) none (some 7) 1 5 (Or.inl rfl)⟩

/-- C8: `_find_close_annotation` only mutates the table by the in-place
`fillna(0)`: the table afterwards is either unchanged (failure before the
fill) or the filled table; a second run leaves the filled table unchanged;
the fill preserves the column list, the row count, every string field and
every present numeric value, replacing only missing numeric cells by 0;
and the fill does not change the match list or the warning flag of any
query, so the result is a pure function of table, query and tolerances. -/
theorem find_matches_frame (t : GNPSTable) (mz rt : Option ℚ) (e f : ℚ) :
    ((findCloseAnn (some t) mz rt e f).table = some t ∨
      (findCloseAnn (some t) mz rt e f).table = some (fillna t)) ∧
    (findCloseAnn (some (fillna t)) mz rt e f).table = some (fillna t) ∧
    (fillna t).columns = t.columns ∧
    (fillna t).rows.length = t.rows.length ∧
    (∀ i, (fillna t).rows.getD i default = fillnaRow (t.rows.getD i default)) ∧
    (∀ row : GNPSRow, (fillnaRow row).strFields = row.strFields ∧
      (row.parentMass.isSome → (fillnaRow row).parentMass = row.parentMass) ∧
      (row.rtMean.isSome → (fillnaRow row).rtMean = row.rtMean) ∧
      (row.parentMass = none → (fillnaRow row).parentMass = some 0) ∧
      (row.rtMean = none → (fillnaRow row).rtMean = some 0)) ∧
    (findCloseAnn (some (fillna t)) mz rt e f).matchList =
      (findCloseAnn (some t) mz rt e f).matchList ∧
    (findCloseAnn (some (fillna t)) mz rt e f).warned =
      (findCloseAnn (some t) mz rt e f).warned := by
  refine ⟨?_, ?_, rfl, by simp [fillna], getD_map_fillnaRow t.rows, ?_, ?_, ?_⟩
  · cases mz with
    | none => exact Or.inl rfl
    | some m =>
      cases rt with
      | none => exact Or.inl rfl
      | some r => exact Or.inr rfl
  · cases mz with
    | none => rfl
    | some m =>
      cases rt with
      | none => rfl
      | some r => simp [findCloseAnn, fillna_fillna]
  · intro row
    refine ⟨rfl, ?_, ?_, ?_, ?_⟩
    · cases h : row.parentMass with
      | none => intro hs; simp [h] at hs
      | some x => intro _; simp [fillnaRow, h]
    · cases h : row.rtMean with
      | none => intro hs; simp [h] at hs
      | some x => intro _; simp [fillnaRow, h]
    · intro h; simp [fillnaRow, h]
    · intro h; simp [fillnaRow, h]
  · cases mz with
    | none => rfl
    | some m =>
      cases rt with
      | none => rfl
      | some r =>
        show findCloseCore (fillna (fillna t)).rows m r e f = _
        rw [fillna_fillna]
        rfl
  · cases mz with
    | none => rfl
    | some m =>
      cases rt with
      | none => rfl
      | some r => rfl

/-- Witness for C8: second-run stability and the per-row fill behavior at
the sample rows, discharging the present-value and missing-value
hypotheses concretely. -/
theorem find_matches_frame_witness :
    ((findCloseAnn (some sampleTable) (some 100) (some 10) 1 5).table = some sampleTable ∨
      (findCloseAnn (some sampleTable) (some 100) (some 10) 1 5).table =
        some (fillna sampleTable)) ∧
    sampleRow3.parentMass = none ∧
    (fillnaRow sampleRow3).parentMass = some 0 ∧
    sampleRow1.parentMass.isSome ∧
    (fillnaRow sampleRow1).parentMass = sampleRow1.parentMass := by
  refine ⟨(find_matches_frame sampleTable (some 100) (some 10) 1 5).1, rfl, ?_, rfl, ?_⟩
  · exact ((find_matches_frame sampleTable (some 100) (some 10) 1 5).2.2.2.2.2.1
      sampleRow3).2.2.2.1 rfl
  · exact ((find_matches_frame sampleTable (some 100) (some 10) 1 5).2.2.2.2.2.1
      sampleRow1).2.1 rfl

/-- String rendering of a numeric cell, as `'%s' % value` renders it
(pandas NaN prints as `nan`). -/
def numStr : Option ℚ → String
  | none => "nan"
  | some q => toString q

/-- Lookup of a string column in a row. -/
def getStr (r : GNPSRow) (col : String) : String :=
  (r.strFields.lookup col).getD ""

/-- Value of `row[col]` rendered as a string: the numeric columns
`parent mass` and `RTMean` render their number, any other column is read
from the string fields. -/
def cellStr (r : GNPSRow) (col : String) : String :=
  if col = "parent mass" then numStr r.parentMass
  else if col = "RTMean" then numStr r.rtMean
  else getStr r col

/-- The five fixed labels of `get_seq_annotation_strings`. -/
def detailLabels : List String :=
  ["parent mass", "RTMean", "LibraryID", "AllOrganisms", "componentindex"]

/-- The detail dict built for each summary line. -/
def detailRecord (feature link : String) : List (String × String) :=
  [("annotationtype", "other"), ("feature", feature), ("gnps_link", link)]

/-- Body of `get_seq_annotation_strings` once the cached match list `pos` is
in hand: empty `pos` yields `[]`; otherwise five labeled lines drawn from
row `pos[0]`, then one line per match with the match's `LibraryID`. -/
def summarizeMatches (t : GNPSTable) (feature : String) (pos : List Nat) :
    List (List (String × String) × String) :=
  if pos.length = 0 then []
  else
    detailLabels.map (fun clabel =>
      (detailRecord feature
        (cellStr (t.rows.getD (pos.headD 0) default) "ProteoSAFeClusterLink"),
       clabel ++ ": " ++ cellStr (t.rows.getD (pos.headD 0) default) clabel))
    ++ pos.map (fun cpos =>
      (detailRecord feature
        (cellStr (t.rows.getD cpos default) "ProteoSAFeClusterLink"),
       cellStr (t.rows.getD cpos default) "LibraryID"))

/-- `get_seq_annotation_strings(feature)` of the package version: `[]` when
`gnps_data` is `None`, else the summary built from the cached
`_gnps_ids[feature]` match list. -/
def getSeqAnnotationStrings (gnpsData : Option GNPSTable)
    (cache : List (String × List Nat)) (feature : String) :
    List (List (String × String) × String) :=
  match gnpsData with
  | none => []
  | some t => summarizeMatches t feature ((cache.lookup feature).getD [])

/-- C5 fails at a feature with zero cached matches: the code returns an
empty list, not 5 + 0 = 5 entries. -/
theorem summarize_zero_matches_counterexample :
    (getSeqAnnotationStrings (some sampleTable) [("f1", [])] "f1").length ≠
      5 + ([] : List Nat).length := by
  decide

/-- C5 amended: a feature with an empty cached match list summarizes to the
empty sequence, and a feature with n ≥ 1 cached matches summarizes to
exactly 5 + n pairs — the five fixed labeled detail lines drawn from the
first match, then one pair per match whose short text is that match's
`LibraryID`, in that order. -/
theorem summarize_counts (t : GNPSTable) (cache : List (String × List Nat))
    (feature : String) (pos : List Nat) (hc : cache.lookup feature = some pos) :
    (pos = [] → getSeqAnnotationStrings (some t) cache feature = []) ∧
    (pos ≠ [] →
      getSeqAnnotationStrings (some t) cache feature =
        detailLabels.map (fun clabel =>
          (detailRecord feature
            (cellStr (t.rows.getD (pos.headD 0) default) "ProteoSAFeClusterLink"),
           clabel ++ ": " ++ cellStr (t.rows.getD (pos.headD 0) default) clabel))
        ++ pos.map (fun cpos =>
          (detailRecord feature
            (cellStr (t.rows.getD cpos default) "ProteoSAFeClusterLink"),
           cellStr (t.rows.getD cpos default) "LibraryID")) ∧
      (getSeqAnnotationStrings (some t) cache feature).length = 5 + pos.length) := by
  constructor
  · intro hpos
    simp [getSeqAnnotationStrings, summarizeMatches, hc, hpos]
  · intro hpos
    have hlen : ¬ pos.length = 0 := by
      simpa [List.length_eq_zero] using hpos
    constructor
    · simp [getSeqAnnotationStrings, summarizeMatches, hc, hlen]
    · simp only [getSeqAnnotationStrings, summarizeMatches, hc, hlen, if_false,
        Option.getD_some, List.length_append, List.length_map, detailLabels,
        List.length_cons, List.length_nil]

/-- Witness for C5 (amended) at the sample table with a two-match cache. -/
theorem summarize_counts_witness :
    ([("f1", [0, 2])].lookup "f1" = some [0, 2]) ∧
    (getSeqAnnotationStrings (some sampleTable) [("f1", [0, 2])] "f1").length =
      5 + [0, 2].length := by
  refine ⟨rfl, ?_⟩
  exact ((summarize_counts sampleTable [("f1", [0, 2])] "f1" [0, 2] rfl).2
    (by simp)).2

/-- One feature of the host experiment: its metadata key and its `MZ` and
`RT` values (`none` models a value `float(...)` rejects). -/
structure Feature where
  key : String
  mzVal : Option ℚ
  rtVal : Option ℚ
  deriving Repr, DecidableEq

/-- The MZ/RT branch of `_prepare_gnps_ids`: walk the features in order,
query `_find_close_annotation` for each (threading the table state, since
the call mutates the table via `fillna`), and record each feature's match
list in the `_gnps_ids` cache. -/
def prepareGnpsIdsTol : Option GNPSTable → List Feature → ℚ → ℚ →
    Option GNPSTable × List (String × List Nat)
  | s, [], _, _ => (s, [])
  | s, ft :: rest, e, f =>
    let res := findCloseAnn s ft.mzVal ft.rtVal e f
    let tail := prepareGnpsIdsTol res.table rest e f
    (tail.1, (ft.key, res.matchList) :: tail.2)

/-- The commented-out direct path of `get_seq_annotation_strings`: match the
feature with `_find_close_annotation` on the spot (with its table-filling
side effect) instead of reading the cache. -/
def getSeqAnnotationStringsDirect (gnpsData : Option GNPSTable) (ft : Feature)
    (e f : ℚ) : List (List (String × String) × String) :=
  match gnpsData with
  | none => []
  | some t =>
    let res := findCloseAnn (some t) ft.mzVal ft.rtVal e f
    match res.table with
    | none => []
    | some t2 => summarizeMatches t2 ft.key res.matchList

theorem summarizeMatches_nil (t : GNPSTable) (feature : String) :
    summarizeMatches t feature [] = [] := rfl

theorem matchList_fillna (t : GNPSTable) (mz rt : Option ℚ) (e f : ℚ) :
    (findCloseAnn (some (fillna t)) mz rt e f).matchList =
      (findCloseAnn (some t) mz rt e f).matchList := by
  cases mz with
  | none => rfl
  | some m =>
    cases rt with
    | none => rfl
    | some r =>
      show findCloseCore (fillna (fillna t)).rows m r e f = _
      rw [fillna_fillna]
      rfl

theorem prepare_pass_spec (features : List Feature) (t : GNPSTable) (e f : ℚ) :
    (prepareGnpsIdsTol (some t) features e f).2 =
      features.map (fun ft =>
        (ft.key, (findCloseAnn (some t) ft.mzVal ft.rtVal e f).matchList)) ∧
    ((prepareGnpsIdsTol (some t) features e f).1 = some t ∨
      (prepareGnpsIdsTol (some t) features e f).1 = some (fillna t)) ∧
    (∀ ft ∈ features, ft.mzVal.isSome → ft.rtVal.isSome →
      (prepareGnpsIdsTol (some t) features e f).1 = some (fillna t)) := by
  induction features generalizing t with
  | nil =>
    refine ⟨rfl, Or.inl rfl, ?_⟩
    intro ft h
    cases h
  | cons ft rest ih =>
    have hstep : prepareGnpsIdsTol (some t) (ft :: rest) e f =
        ((prepareGnpsIdsTol (findCloseAnn (some t) ft.mzVal ft.rtVal e f).table
            rest e f).1,
         (ft.key, (findCloseAnn (some t) ft.mzVal ft.rtVal e f).matchList) ::
           (prepareGnpsIdsTol (findCloseAnn (some t) ft.mzVal ft.rtVal e f).table
             rest e f).2) := rfl
    cases hmz : ft.mzVal with
    | none =>
      have htab : (findCloseAnn (some t) ft.mzVal ft.rtVal e f).table = some t := by
        rw [hmz]; cases ft.rtVal <;> rfl
      refine ⟨?_, ?_, ?_⟩
      · rw [hstep]
        simp only [List.map_cons]
        rw [htab, (ih t).1]
      · rw [hstep]
        simp only
        rw [htab]
        exact (ih t).2.1
      · intro ft2 hmem h1 h2
        rcases List.mem_cons.mp hmem with h | h
        · subst h
          rw [hmz] at h1
          cases h1
        · rw [hstep]
          simp only
          rw [htab]
          exact (ih t).2.2 ft2 h h1 h2
    | some m =>
      cases hrt : ft.rtVal with
      | none =>
        have htab : (findCloseAnn (some t) ft.mzVal ft.rtVal e f).table = some t := by
          rw [hmz, hrt]; rfl
        refine ⟨?_, ?_, ?_⟩
        · rw [hstep]
          simp only [List.map_cons]
          rw [htab, (ih t).1]
        · rw [hstep]
          simp only
          rw [htab]
          exact (ih t).2.1
        · intro ft2 hmem h1 h2
          rcases List.mem_cons.mp hmem with h | h
          · subst h
            rw [hrt] at h2
            cases h2
          · rw [hstep]
            simp only
            rw [htab]
            exact (ih t).2.2 ft2 h h1 h2
      | some r =>
        have htab : (findCloseAnn (some t) ft.mzVal ft.rtVal e f).table =
            some (fillna t) := by
          rw [hmz, hrt]; rfl
        have hmaps : rest.map (fun x =>
            (x.key, (findCloseAnn (some (fillna t)) x.mzVal x.rtVal e f).matchList)) =
            rest.map (fun x =>
              (x.key, (findCloseAnn (some t) x.mzVal x.rtVal e f).matchList)) := by
          refine List.map_congr_left ?_
          intro x _
          rw [matchList_fillna]
        refine ⟨?_, ?_, ?_⟩
        · rw [hstep]
          simp only [List.map_cons]
          rw [htab, (ih (fillna t)).1, hmaps]
        · rw [hstep]
          simp only
          rw [htab]
          rcases (ih (fillna t)).2.1 with h | h
          · exact Or.inr h
          · rw [fillna_fillna] at h
            exact Or.inr h
        · intro ft2 hmem h1 h2
          rw [hstep]
          simp only
          rw [htab]
          rcases (ih (fillna t)).2.1 with h | h
          · exact h
          · rw [fillna_fillna] at h
            exact h

theorem lookup_map_key {α : Type} (g : Feature → α) (features : List Feature)
    (ft : Feature) (hmem : ft ∈ features)
    (hnd : (features.map Feature.key).Nodup) :
    (features.map (fun x => (x.key, g x))).lookup ft.key = some (g ft) := by
  induction features with
  | nil => cases hmem
  | cons a rest ih =>
    rcases List.mem_cons.mp hmem with h | h
    · subst h
      simp [List.lookup]
    · have hne : ¬ ft.key = a.key := by
        intro hk
        have hin : ft.key ∈ rest.map Feature.key := List.mem_map.mpr ⟨ft, h, rfl⟩
        rw [hk] at hin
        exact (List.nodup_cons.mp hnd).1 hin
      have hbeq : (ft.key == a.key) = false := beq_eq_false_iff_ne.mpr hne
      simp only [List.map_cons, List.lookup, hbeq]
      exact ih h (List.nodup_cons.mp hnd).2

/-- C2: linking every feature with `_prepare_gnps_ids` (MZ/RT mode) and
then summarizing a feature from the `_gnps_ids` cache gives exactly what
`get_seq_annotation_strings` would give calling `_find_close_annotation`
for that feature directly with the same tolerances: the cache changes no
result. -/
theorem link_then_summarize_roundtrip (t : GNPSTable) (features : List Feature)
    (e f : ℚ) (ft : Feature) (hmem : ft ∈ features)
    (hnd : (features.map Feature.key).Nodup) :
    getSeqAnnotationStrings (prepareGnpsIdsTol (some t) features e f).1
      (prepareGnpsIdsTol (some t) features e f).2 ft.key =
    getSeqAnnotationStringsDirect (some t) ft e f := by
  obtain ⟨hcache, hstate, hfill⟩ := prepare_pass_spec features t e f
  have hlook : ((prepareGnpsIdsTol (some t) features e f).2).lookup ft.key =
      some ((findCloseAnn (some t) ft.mzVal ft.rtVal e f).matchList) := by
    rw [hcache]
    exact lookup_map_key _ features ft hmem hnd
  cases hmz : ft.mzVal with
  | none =>
    have hres : findCloseAnn (some t) ft.mzVal ft.rtVal e f =
        { table := some t, matchList := [], warned := true } := by
      rw [hmz]; cases ft.rtVal <;> rfl
    have hrhs : getSeqAnnotationStringsDirect (some t) ft e f = [] := by
      simp [getSeqAnnotationStringsDirect, hres, summarizeMatches_nil]
    rw [hrhs]
    rcases hstate with hst | hst <;>
      · rw [hst]
        show summarizeMatches _ ft.key ((_ : Option (List Nat)).getD []) = []
        rw [hlook, hres]
        rfl
  | some m =>
    cases hrt : ft.rtVal with
    | none =>
      have hres : findCloseAnn (some t) ft.mzVal ft.rtVal e f =
          { table := some t, matchList := [], warned := true } := by
        rw [hmz, hrt]; rfl
      have hrhs : getSeqAnnotationStringsDirect (some t) ft e f = [] := by
        simp [getSeqAnnotationStringsDirect, hres, summarizeMatches_nil]
      rw [hrhs]
      rcases hstate with hst | hst <;>
        · rw [hst]
          show summarizeMatches _ ft.key ((_ : Option (List Nat)).getD []) = []
          rw [hlook, hres]
          rfl
    | some r =>
      have hres : (findCloseAnn (some t) ft.mzVal ft.rtVal e f).table =
          some (fillna t) := by
        rw [hmz, hrt]; rfl
      have hst : (prepareGnpsIdsTol (some t) features e f).1 = some (fillna t) :=
        hfill ft hmem (by rw [hmz]; rfl) (by rw [hrt]; rfl)
      rw [hst]
      show summarizeMatches (fillna t) ft.key ((_ : Option (List Nat)).getD []) = _
      rw [hlook]
      show summarizeMatches (fillna t) ft.key
        ((findCloseAnn (some t) ft.mzVal ft.rtVal e f).matchList) = _
      simp only [getSeqAnnotationStringsDirect, hres]

/-- Sample feature that parses and matches the sample table. -/
def sampleFeat1 : Feature := { key := "f1", mzVal := some 100, rtVal := some 10 }

/-- Sample feature whose MZ does not parse as a float. -/
def sampleFeat2 : Feature := { key := "f2", mzVal := none, rtVal := some 3 }

/-- Sample feature list. -/
def sampleFeatures : List Feature := [sampleFeat1, sampleFeat2]

/-- Witness for C2 at the sample table and features with tolerances (1, 5). -/
theorem link_then_summarize_roundtrip_witness :
    sampleFeat1 ∈ sampleFeatures ∧
    (sampleFeatures.map Feature.key).Nodup ∧
    getSeqAnnotationStrings (prepareGnpsIdsTol (some sampleTable) sampleFeatures 1 5).1
      (prepareGnpsIdsTol (some sampleTable) sampleFeatures 1 5).2 sampleFeat1.key =
    getSeqAnnotationStringsDirect (some sampleTable) sampleFeat1 1 5 :=
  ⟨List.mem_cons_self _ _, by decide,
    link_then_summarize_roundtrip sampleTable sampleFeatures 1 5 sampleFeat1
      (List.mem_cons_self _ _) (by decide)⟩

/-- Python dict assignment `cterms[cterm] = 1` over an insertion-ordered
association list: an existing key keeps its position and gets value 1, a
new key is appended with value 1. -/
def dictInsertTerm (m : List (String × Nat)) (k : String) : List (String × Nat) :=
  if (m.lookup k).isSome then m.map (fun p => if p.1 = k then (p.1, 1) else p)
  else m ++ [(k, 1)]

/-- The per-feature loop of `get_feature_terms`: walk the cached match
positions; a value equal to "N/A" is skipped and remembered in the
`foundna` flag, any other value is inserted with weight 1. -/
def collectTerms (t : GNPSTable) (termType : String) :
    List Nat → List (String × Nat) → Bool → List (String × Nat) × Bool
  | [], acc, fna => (acc, fna)
  | cpos :: rest, acc, fna =>
    if cellStr (t.rows.getD cpos default) termType = "N/A" then
      collectTerms t termType rest acc true
    else
      collectTerms t termType rest
        (dictInsertTerm acc (cellStr (t.rows.getD cpos default) termType)) fna

/-- What `get_feature_terms` stores for one feature: either the dict of
term → 1, or the literal one-element list holding the string na. -/
inductive TermsValue where
  | terms : List (String × Nat) → TermsValue
  | naList : TermsValue
  deriving Repr, DecidableEq

/-- The value `get_feature_terms` computes for one feature from its cached
positions: the collected dict, replaced by the na list when the dict came
out empty but an "N/A" value was seen. -/
def featureTermsOne (t : GNPSTable) (termType : String) (pos : List Nat) :
    TermsValue :=
  let res := collectTerms t termType pos [] false
  if res.1 = [] then (if res.2 then TermsValue.naList else TermsValue.terms [])
  else TermsValue.terms res.1

/-- `get_feature_terms(features, term_type)`: raises `ValueError` when
`term_type` is not a column of the reference table, otherwise maps each
feature to the value collected from its cached `_gnps_ids` positions. -/
def getFeatureTerms (t : GNPSTable) (cache : List (String × List Nat))
    (features : List String) (termType : String) :
    Except String (List (String × TermsValue)) :=
  if termType ∈ t.columns then
    Except.ok (features.map (fun cfeature =>
      (cfeature, featureTermsOne t termType ((cache.lookup cfeature).getD []))))
  else
    Except.error ("term_type " ++ termType ++
      " not a column in the gnps clusterinfo file.")

theorem lookup_isSome_iff (m : List (String × Nat)) (k : String) :
    (m.lookup k).isSome = true ↔ k ∈ m.map Prod.fst := by
  induction m with
  | nil => simp [List.lookup]
  | cons p rest ih =>
    by_cases hk : k = p.1
    · subst hk
      simp [List.lookup]
    · have hbeq : (k == p.1) = false := beq_eq_false_iff_ne.mpr hk
      simp only [List.lookup, hbeq, List.map_cons, List.mem_cons]
      rw [ih]
      constructor
      · exact fun h => Or.inr h
      · rintro (h | h)
        · exact absurd h hk
        · exact h

theorem mem_dictInsertTerm (m : List (String × Nat)) (k : String) (p : String × Nat)
    (hp : p ∈ dictInsertTerm m k) :
    (p ∈ m ∨ p.2 = 1) ∧ (p.1 = k ∨ p.1 ∈ m.map Prod.fst) := by
  unfold dictInsertTerm at hp
  split at hp
  · obtain ⟨q, hq, hfq⟩ := List.mem_map.mp hp
    by_cases hqk : q.1 = k
    · rw [if_pos hqk] at hfq
      refine ⟨Or.inr ?_, Or.inl ?_⟩
      · rw [← hfq]
      · rw [← hfq, hqk]
    · rw [if_neg hqk] at hfq
      subst hfq
      exact ⟨Or.inl hq, Or.inr (List.mem_map.mpr ⟨q, hq, rfl⟩)⟩
  · rcases List.mem_append.mp hp with h | h
    · exact ⟨Or.inl h, Or.inr (List.mem_map.mpr ⟨p, h, rfl⟩)⟩
    · simp only [List.mem_singleton] at h
      subst h
      exact ⟨Or.inr rfl, Or.inl rfl⟩

theorem keys_dictInsertTerm (m : List (String × Nat)) (k k2 : String)
    (hk : k2 ∈ m.map Prod.fst ∨ k2 = k) :
    k2 ∈ (dictInsertTerm m k).map Prod.fst := by
  have hkeys : (m.map (fun p => if p.1 = k then (p.1, 1) else p)).map Prod.fst =
      m.map Prod.fst := by
    rw [List.map_map]
    refine List.map_congr_left ?_
    intro q _
    by_cases hq : q.1 = k
    · simp [Function.comp, hq]
    · simp [Function.comp, hq]
  unfold dictInsertTerm
  split
  · rw [hkeys]
    rcases hk with h | h
    · exact h
    · subst h
      rw [← lookup_isSome_iff]
      assumption
  · rw [List.map_append]
    rcases hk with h | h
    · exact List.mem_append.mpr (Or.inl h)
    · subst h
      exact List.mem_append.mpr (Or.inr (by simp))

theorem values_dictInsertTerm (m : List (String × Nat)) (k : String)
    (hm : ∀ p ∈ m, p.2 = 1) :
    ∀ p ∈ dictInsertTerm m k, p.2 = 1 := by
  intro p hp
  rcases (mem_dictInsertTerm m k p hp).1 with h | h
  · exact hm p h
  · exact h

theorem collectTerms_values (t : GNPSTable) (termType : String) (pos : List Nat)
    (acc : List (String × Nat)) (fna : Bool) (hacc : ∀ p ∈ acc, p.2 = 1) :
    ∀ p ∈ (collectTerms t termType pos acc fna).1, p.2 = 1 := by
  induction pos generalizing acc fna with
  | nil => exact hacc
  | cons i rest ih =>
    unfold collectTerms
    split
    · exact ih acc true hacc
    · exact ih _ fna (values_dictInsertTerm _ _ hacc)

theorem keys_dictInsertTerm_sub (m : List (String × Nat)) (k k2 : String)
    (h : k2 ∈ (dictInsertTerm m k).map Prod.fst) :
    k2 = k ∨ k2 ∈ m.map Prod.fst := by
  obtain ⟨q, hq, hfq⟩ := List.mem_map.mp h
  subst hfq
  exact (mem_dictInsertTerm m k q hq).2

theorem collectTerms_sound (t : GNPSTable) (termType : String) (pos : List Nat)
    (acc : List (String × Nat)) (fna : Bool) :
    ∀ p ∈ (collectTerms t termType pos acc fna).1,
      p.1 ∈ acc.map Prod.fst ∨
        (p.1 ≠ "N/A" ∧ ∃ i ∈ pos, cellStr (t.rows.getD i default) termType = p.1) := by
  induction pos generalizing acc fna with
  | nil =>
    intro p hp
    exact Or.inl (List.mem_map.mpr ⟨p, hp, rfl⟩)
  | cons i rest ih =>
    intro p hp
    by_cases hNA : cellStr (t.rows.getD i default) termType = "N/A"
    · simp only [collectTerms] at hp
      rw [if_pos hNA] at hp
      rcases ih acc true p hp with h | ⟨h1, j, hj, hv⟩
      · exact Or.inl h
      · exact Or.inr ⟨h1, j, List.mem_cons_of_mem _ hj, hv⟩
    · simp only [collectTerms] at hp
      rw [if_neg hNA] at hp
      rcases ih _ fna p hp with h | ⟨h1, j, hj, hv⟩
      · rcases keys_dictInsertTerm_sub _ _ _ h with hk | hk
        · refine Or.inr ⟨?_, i, List.mem_cons_self _ _, hk.symm⟩
          rw [hk]
          exact hNA
        · exact Or.inl hk
      · exact Or.inr ⟨h1, j, List.mem_cons_of_mem _ hj, hv⟩

theorem keys_mono_collectTerms (t : GNPSTable) (termType : String) (pos : List Nat)
    (acc : List (String × Nat)) (fna : Bool) (k : String)
    (hk : k ∈ acc.map Prod.fst) :
    k ∈ (collectTerms t termType pos acc fna).1.map Prod.fst := by
  induction pos generalizing acc fna with
  | nil => exact hk
  | cons i rest ih =>
    by_cases hNA : cellStr (t.rows.getD i default) termType = "N/A"
    · simp only [collectTerms]
      rw [if_pos hNA]
      exact ih acc true hk
    · simp only [collectTerms]
      rw [if_neg hNA]
      exact ih _ fna (keys_dictInsertTerm acc _ k (Or.inl hk))

theorem collectTerms_complete (t : GNPSTable) (termType : String) (pos : List Nat)
    (acc : List (String × Nat)) (fna : Bool) :
    ∀ i ∈ pos, cellStr (t.rows.getD i default) termType ≠ "N/A" →
      cellStr (t.rows.getD i default) termType ∈
        (collectTerms t termType pos acc fna).1.map Prod.fst := by
  induction pos generalizing acc fna with
  | nil =>
    intro i h
    cases h
  | cons j rest ih =>
    intro i hi hne
    by_cases hNA : cellStr (t.rows.getD j default) termType = "N/A"
    · simp only [collectTerms]
      rw [if_pos hNA]
      rcases List.mem_cons.mp hi with h | h
      · subst h
        exact absurd hNA hne
      · exact ih acc true i h hne
    · simp only [collectTerms]
      rw [if_neg hNA]
      rcases List.mem_cons.mp hi with h | h
      · subst h
        exact keys_mono_collectTerms t termType rest _ fna _
          (keys_dictInsertTerm acc _ _ (Or.inr rfl))
      · exact ih _ fna i h hne

theorem collectTerms_allNA (t : GNPSTable) (termType : String) (pos : List Nat)
    (acc : List (String × Nat)) (fna : Bool)
    (h : ∀ i ∈ pos, cellStr (t.rows.getD i default) termType = "N/A") :
    collectTerms t termType pos acc fna = (acc, if pos = [] then fna else true) := by
  revert h
  induction pos generalizing acc fna with
  | nil =>
    intro h
    simp [collectTerms]
  | cons i rest ih =>
    intro h
    simp only [collectTerms]
    rw [if_pos (h i (List.mem_cons_self _ _))]
    rw [ih acc true (fun j hj => h j (List.mem_cons_of_mem _ hj))]
    simp

/-- C6: `get_feature_terms` (for a term type that is a column) maps each
feature to the value built from its cached positions; zero cached matches
give the empty collection, at least one match with every value "N/A" gives
the na list, and a returned dict carries exactly the non-"N/A" values read
from the matched rows, every one with weight 1. -/
theorem terms_for_features_values (t : GNPSTable) (cache : List (String × List Nat))
    (termType feat : String) (pos : List Nat)
    (hcol : termType ∈ t.columns) (hc : cache.lookup feat = some pos) :
    getFeatureTerms t cache [feat] termType =
      Except.ok [(feat, featureTermsOne t termType pos)] ∧
    (pos = [] → featureTermsOne t termType pos = TermsValue.terms []) ∧
    (pos ≠ [] → (∀ i ∈ pos, cellStr (t.rows.getD i default) termType = "N/A") →
      featureTermsOne t termType pos = TermsValue.naList) ∧
    (∀ l, featureTermsOne t termType pos = TermsValue.terms l →
      (∀ p ∈ l, p.2 = 1) ∧
      (∀ p ∈ l, p.1 ≠ "N/A" ∧
        ∃ i ∈ pos, cellStr (t.rows.getD i default) termType = p.1) ∧
      (∀ i ∈ pos, cellStr (t.rows.getD i default) termType ≠ "N/A" →
        cellStr (t.rows.getD i default) termType ∈ l.map Prod.fst)) := by
  refine ⟨?_, ?_, ?_, ?_⟩
  · simp [getFeatureTerms, if_pos hcol, hc]
  · intro h
    subst h
    simp [featureTermsOne, collectTerms]
  · intro hne hall
    unfold featureTermsOne
    rw [collectTerms_allNA t termType pos [] false hall]
    simp [hne]
  · intro l hl
    unfold featureTermsOne at hl
    by_cases hres : (collectTerms t termType pos [] false).1 = []
    · rw [if_pos hres] at hl
      have hl2 : l = [] := by
        rcases hb : (collectTerms t termType pos [] false).2 with _ | _
        · rw [hb] at hl
          simp only [if_neg Bool.false_ne_true] at hl
          cases hl
          rfl
        · rw [hb] at hl
          simp only [if_pos rfl] at hl
          cases hl
      subst hl2
      refine ⟨?_, ?_, ?_⟩
      · intro p hp
        cases hp
      · intro p hp
        cases hp
      · intro i hi hv
        exfalso
        have hmem := collectTerms_complete t termType pos [] false i hi hv
        rw [hres] at hmem
        cases hmem
    · rw [if_neg hres] at hl
      cases hl
      refine ⟨?_, ?_, ?_⟩
      · exact collectTerms_values t termType pos [] false (by intro p hp; cases hp)
      · intro p hp
        rcases collectTerms_sound t termType pos [] false p hp with h | h
        · cases h
        · exact h
      · exact collectTerms_complete t termType pos [] false

/-- Witness for C6 at the sample table: positions 0 and 1 carry LibraryID
values LibA and the excluded sentinel. -/
theorem terms_for_features_values_witness :
    ("LibraryID" ∈ sampleTable.columns) ∧
    ([("f1", [0, 1])].lookup "f1" = some [0, 1]) ∧
    getFeatureTerms sampleTable [("f1", [0, 1])] ["f1"] "LibraryID" =
      Except.ok [("f1", featureTermsOne sampleTable "LibraryID" [0, 1])] :=
  ⟨by decide, rfl,
    (terms_for_features_values sampleTable [("f1", [0, 1])] "LibraryID" "f1" [0, 1]
      (by decide) rfl).1⟩

/-- Result of constructing the `GNPS` plugin object: either a constructed
object (its `gnps_data`, possibly `None`, and whether a warning was
logged), or a raised error. -/
inductive InitResult where
  | ok : Option GNPSTable → Bool → InitResult
  | error : String → InitResult
  deriving Repr, DecidableEq

/-- Whether construction raised. -/
def InitResult.isError : InitResult → Bool
  | InitResult.error _ => true
  | _ => false

/-- `GNPS.__init__` of the package version: a missing gnpscalour entry in
`exp.databases` logs a warning and leaves `gnps_data = None` (the method
returns normally); otherwise the table is stored with its numeric columns
coerced (which the `Option ℚ` cells already reflect). -/
def gnpsInitPackage (databases : List (String × GNPSTable)) : InitResult :=
  match databases.lookup "gnpscalour" with
  | none => InitResult.ok none true
  | some t => InitResult.ok (some t) false

/-- `GNPS.__init__` of the legacy single-file version: a missing table in
`exp.exp_metadata` raises `ValueError`. -/
def gnpsInitLegacy (expMetadata : List (String × GNPSTable)) : InitResult :=
  match expMetadata.lookup "_calour_metabolomics_gnps_table" with
  | none => InitResult.error
      "Cannot initialize GNPS database since gnps info file was not supplied."
  | some t => InitResult.ok (some t) false

/-- Suffix after the last colon, i.e. `s.split(':')[-1]` (the whole string
when there is no colon). -/
def afterLastColon (cs : List Char) : List Char :=
  ((cs.reverse.takeWhile (fun c => !(c = ':')))).reverse

/-- Prefix before the first occurrence of `###`, i.e. `s.split('###')[0]`
(the whole string when there is no occurrence). -/
def beforeHashes : List Char → List Char
  | [] => []
  | '#' :: '#' :: '#' :: _ => []
  | c :: rest => c :: beforeHashes rest

/-- Value of a run of decimal digits; `none` when empty or when any
character is not a digit. -/
def digitsVal (cs : List Char) : Option Nat :=
  if cs = [] then none
  else cs.foldl (fun acc c =>
    match acc with
    | none => none
    | some n => if c.isDigit then some (n * 10 + (c.toNat - 48)) else none) (some 0)

/-- Whitespace stripped from both ends. -/
def trimChars (cs : List Char) : List Char :=
  ((cs.dropWhile Char.isWhitespace).reverse.dropWhile Char.isWhitespace).reverse

/-- Python `int(s)` on a string: surrounding whitespace is stripped, an
optional sign is allowed, then decimal digits; anything else raises. -/
def pyInt (cs : List Char) : Option Int :=
  match trimChars cs with
  | '-' :: rest => (digitsVal rest).map (fun n => -(n : Int))
  | '+' :: rest => (digitsVal rest).map (fun n => (n : Int))
  | rest => (digitsVal rest).map (fun n => (n : Int))

/-- Parsing of one `AllFiles` compound identifier in `_prepare_gnps_ids`:
`cid.split(':')[-1].split('###')[0]` converted by `int(...)`. -/
def parseAllFilesId (s : String) : Option Int :=
  pyInt (beforeHashes (afterLastColon s.data))

/-- Python dict assignment `pos[cmet] = idx`: an existing key keeps its
position and gets the new value, a new key is appended. -/
def dictInsertPos (m : List (Int × Nat)) (k : Int) (v : Nat) : List (Int × Nat) :=
  if (m.lookup k).isSome then m.map (fun p => if p.1 = k then (p.1, v) else p)
  else m ++ [(k, v)]

/-- The loop `for idx, cmet in enumerate(ids): pos[cmet] = idx`, with `i`
the index of the first element of the remaining list. -/
def buildPosMapFrom : List Int → Nat → List (Int × Nat) → List (Int × Nat)
  | [], _, m => m
  | k :: rest, i, m => buildPosMapFrom rest (i + 1) (dictInsertPos m k i)

/-- Index of the last occurrence of `k` in `ids`, counting from `i`. -/
def lastIdxFrom : List Int → Nat → Int → Option Nat
  | [], _, _ => none
  | a :: rest, i, k =>
    match lastIdxFrom rest (i + 1) k with
    | some j => some j
    | none => if a = k then some i else none

/-- A Python loop that builds a list and can raise: stop at the first
raising element. -/
def exceptMapList {α β : Type} (g : α → Except String β) :
    List α → Except String (List β)
  | [] => Except.ok []
  | a :: rest =>
    match g a with
    | Except.error msg => Except.error msg
    | Except.ok b =>
      match exceptMapList g rest with
      | Except.error msg => Except.error msg
      | Except.ok bs => Except.ok (b :: bs)

/-- Parse one reference row's `AllFiles` id; an unparseable id makes the
`int(...)` call raise `ValueError`. -/
def parseRowId (r : GNPSRow) : Except String Int :=
  match parseAllFilesId (getStr r "AllFiles") with
  | some i => Except.ok i
  | none => Except.error "invalid literal for int()"

/-- The `direct_ids=True, use_gnps_id_from_AllFiles=True` branch of
`_prepare_gnps_ids`: parse every row id, build the id → row-index dict
(later rows overwrite earlier ones), then give every feature key the
singleton list of its looked-up row index, raising `ValueError` for a key
with no parsed reference id. -/
def prepareGnpsIdsDirect (t : GNPSTable) (featureKeys : List Int) :
    Except String (List (Int × List Nat)) :=
  match exceptMapList parseRowId t.rows with
  | Except.error msg => Except.error msg
  | Except.ok ids =>
    let posMap := buildPosMapFrom ids 0 []
    exceptMapList (fun k =>
      match posMap.lookup k with
      | some idx => Except.ok (k, [idx])
      | none => Except.error ("metabolite ID " ++ toString k ++
          " not found in gnps file. Are you using correct ids?"))
      featureKeys

theorem lookup_append_pos (l1 l2 : List (Int × Nat)) (k : Int) :
    (l1 ++ l2).lookup k =
      match l1.lookup k with
      | some v => some v
      | none => l2.lookup k := by
  induction l1 with
  | nil => simp [List.lookup]
  | cons p rest ih =>
    by_cases h : k = p.1
    · simp [List.lookup, h]
    · have hb : (k == p.1) = false := beq_eq_false_iff_ne.mpr h
      simp [List.lookup, hb, ih]

theorem lookup_cons_key (pk : Int) (pv : Nat) (es : List (Int × Nat)) (k : Int) :
    ((pk, pv) :: es).lookup k = if k = pk then some pv else es.lookup k := by
  by_cases h : k = pk
  · simp [List.lookup_cons, h]
  · simp [List.lookup_cons, beq_eq_false_iff_ne.mpr h, h]

theorem lookup_map_setval (m : List (Int × Nat)) (a : Int) (v : Nat) (k : Int) :
    (m.map (fun p => if p.1 = a then (p.1, v) else p)).lookup k =
      if k = a then (m.lookup a).map (fun _ => v) else m.lookup k := by
  induction m with
  | nil => by_cases h : k = a <;> simp [h]
  | cons p rest ih =>
    obtain ⟨pk, pv⟩ := p
    by_cases hpa : pk = a
    · subst hpa
      by_cases hk : k = pk
      · subst hk
        simp [lookup_cons_key, ih]
      · simp [lookup_cons_key, ih, hk]
    · by_cases hk : k = pk
      · subst hk
        simp [lookup_cons_key, ih, hpa]
      · by_cases hka : k = a
        · subst hka
          simp [lookup_cons_key, ih, hpa, hk]
        · simp [lookup_cons_key, ih, hpa, hk, hka]

theorem lookup_dictInsertPos (m : List (Int × Nat)) (a : Int) (v : Nat) (k : Int) :
    (dictInsertPos m a v).lookup k = if k = a then some v else m.lookup k := by
  by_cases hs : (m.lookup a).isSome
  · rw [show dictInsertPos m a v = m.map (fun p => if p.1 = a then (p.1, v) else p)
      from by unfold dictInsertPos; rw [if_pos hs]]
    rw [lookup_map_setval]
    by_cases hk : k = a
    · rw [if_pos hk, if_pos hk]
      obtain ⟨w, hw⟩ := Option.isSome_iff_exists.mp hs
      simp [hw]
    · rw [if_neg hk, if_neg hk]
  · rw [show dictInsertPos m a v = m ++ [(a, v)]
      from by unfold dictInsertPos; rw [if_neg hs]]
    rw [lookup_append_pos]
    by_cases hk : k = a
    · subst hk
      simp [Option.not_isSome_iff_eq_none.mp hs, lookup_cons_key]
    · rw [if_neg hk]
      cases hm : m.lookup k
      · simp [lookup_cons_key, hk]
      · rfl

theorem lookup_buildPosMapFrom (ids : List Int) (i : Nat) (m : List (Int × Nat))
    (k : Int) :
    (buildPosMapFrom ids i m).lookup k =
      match lastIdxFrom ids i k with
      | some j => some j
      | none => m.lookup k := by
  induction ids generalizing i m with
  | nil => simp [buildPosMapFrom, lastIdxFrom]
  | cons a rest ih =>
    simp only [buildPosMapFrom, lastIdxFrom]
    rw [ih]
    cases h : lastIdxFrom rest (i + 1) k with
    | some j => rfl
    | none =>
      simp only
      rw [lookup_dictInsertPos]
      by_cases hk : k = a
      · subst hk
        simp
      · have hak : ¬ a = k := fun hx => hk hx.symm
        simp [hk, hak]

theorem lastIdxFrom_eq_none (ids : List Int) (i : Nat) (k : Int) (h : k ∉ ids) :
    lastIdxFrom ids i k = none := by
  induction ids generalizing i with
  | nil => rfl
  | cons a rest ih =>
    have ha : ¬ a = k := fun hak => h (List.mem_cons.mpr (Or.inl hak.symm))
    simp only [lastIdxFrom]
    rw [ih (i + 1) (fun hm => h (List.mem_cons_of_mem _ hm))]
    simp [ha]

theorem lastIdxFrom_none_forall (ids : List Int) (i : Nat) (k : Int)
    (h : lastIdxFrom ids i k = none) :
    ∀ n, n < ids.length → ids.getD n default ≠ k := by
  induction ids generalizing i with
  | nil =>
    intro n hn
    exact absurd hn (Nat.not_lt_zero n)
  | cons a rest ih =>
    simp only [lastIdxFrom] at h
    cases hrec : lastIdxFrom rest (i + 1) k with
    | some j =>
      rw [hrec] at h
      cases h
    | none =>
      rw [hrec] at h
      have hak : ¬ a = k := by
        by_cases hc : a = k
        · rw [if_pos hc] at h
          cases h
        · exact hc
      intro n hn
      cases n with
      | zero => simpa using hak
      | succ n2 =>
        simp only [List.getD_cons_succ]
        exact ih (i + 1) hrec n2 (by simpa using hn)

theorem lastIdxFrom_spec (ids : List Int) (i : Nat) (k : Int) (j : Nat)
    (h : lastIdxFrom ids i k = some j) :
    ∃ n, j = i + n ∧ n < ids.length ∧ ids.getD n default = k ∧
      ∀ n2, n < n2 → n2 < ids.length → ids.getD n2 default ≠ k := by
  induction ids generalizing i j with
  | nil => cases h
  | cons a rest ih =>
    simp only [lastIdxFrom] at h
    cases hrec : lastIdxFrom rest (i + 1) k with
    | some j2 =>
      rw [hrec] at h
      cases h
      obtain ⟨n, hn1, hn2, hn3, hn4⟩ := ih (i + 1) _ hrec
      refine ⟨n + 1, by omega, by simpa using hn2, by simpa using hn3, ?_⟩
      intro n2 hgt hlt
      cases n2 with
      | zero => omega
      | succ n3 =>
        simp only [List.getD_cons_succ]
        exact hn4 n3 (by omega) (by simpa using hlt)
    | none =>
      rw [hrec] at h
      by_cases hak : a = k
      · rw [if_pos hak] at h
        cases h
        refine ⟨0, by omega, by simp, by simpa using hak, ?_⟩
        intro n2 hgt hlt
        cases n2 with
        | zero => omega
        | succ n3 =>
          simp only [List.getD_cons_succ]
          exact lastIdxFrom_none_forall rest (i + 1) k hrec n3 (by simpa using hlt)
      · rw [if_neg hak] at h
        cases h

theorem exceptMapList_ok_spec {α β : Type} [Inhabited α] [Inhabited β]
    (g : α → Except String β) (l : List α) (bs : List β)
    (h : exceptMapList g l = Except.ok bs) :
    bs.length = l.length ∧
    (∀ n, n < l.length → g (l.getD n default) = Except.ok (bs.getD n default)) := by
  induction l generalizing bs with
  | nil =>
    simp only [exceptMapList] at h
    cases h
    refine ⟨rfl, ?_⟩
    intro n hn
    exact absurd hn (Nat.not_lt_zero n)
  | cons a rest ih =>
    simp only [exceptMapList] at h
    cases hga : g a with
    | error msg =>
      rw [hga] at h
      cases h
    | ok b =>
      rw [hga] at h
      cases hrec : exceptMapList g rest with
      | error msg =>
        rw [hrec] at h
        cases h
      | ok bs0 =>
        rw [hrec] at h
        cases h
        obtain ⟨hlen, hspec⟩ := ih bs0 hrec
        refine ⟨by simp [hlen], ?_⟩
        intro n hn
        cases n with
        | zero => simpa using hga
        | succ n2 =>
          simp only [List.getD_cons_succ]
          exact hspec n2 (Nat.lt_of_succ_lt_succ hn)

theorem exceptMapList_ok_mem {α β : Type} (g : α → Except String β) (l : List α)
    (bs : List β) (h : exceptMapList g l = Except.ok bs) :
    ∀ b ∈ bs, ∃ a ∈ l, g a = Except.ok b := by
  induction l generalizing bs with
  | nil =>
    simp only [exceptMapList] at h
    cases h
    intro b hb
    cases hb
  | cons a rest ih =>
    simp only [exceptMapList] at h
    cases hga : g a with
    | error msg =>
      rw [hga] at h
      cases h
    | ok b0 =>
      rw [hga] at h
      cases hrec : exceptMapList g rest with
      | error msg =>
        rw [hrec] at h
        cases h
      | ok bs0 =>
        rw [hrec] at h
        cases h
        intro b hb
        rcases List.mem_cons.mp hb with hb | hb
        · exact ⟨a, List.mem_cons_self _ _, hb ▸ hga⟩
        · obtain ⟨a2, ha2, hga2⟩ := ih bs0 hrec b hb
          exact ⟨a2, List.mem_cons_of_mem _ ha2, hga2⟩

theorem exceptMapList_error_of_mem {α β : Type} (g : α → Except String β)
    (l : List α) (a : α) (ha : a ∈ l) (hga : ∀ b, g a ≠ Except.ok b) :
    ∃ msg, exceptMapList g l = Except.error msg := by
  induction l with
  | nil => cases ha
  | cons x rest ih =>
    simp only [exceptMapList]
    cases hgx : g x with
    | error msg => exact ⟨msg, rfl⟩
    | ok b =>
      rcases List.mem_cons.mp ha with hax | hax
      · subst hax
        exact absurd hgx (hga b)
      · obtain ⟨msg, hmsg⟩ := ih hax
        rw [hmsg]
        exact ⟨msg, rfl⟩

theorem prepareDirect_missing_key_error (t : GNPSTable) (keys : List Int)
    (k : Int) (ids : List Int)
    (hids : exceptMapList parseRowId t.rows = Except.ok ids)
    (hk : k ∈ keys) (hmiss : k ∉ ids) :
    ∃ msg, prepareGnpsIdsDirect t keys = Except.error msg := by
  unfold prepareGnpsIdsDirect
  rw [hids]
  refine exceptMapList_error_of_mem _ keys k hk ?_
  intro b
  rw [lookup_buildPosMapFrom, lastIdxFrom_eq_none ids 0 k hmiss]
  simp [List.lookup]

/-- C10: in direct-id mode every cached match set is a one-element list
(never empty, never longer), and its index is that of the last row in
table order whose parsed `AllFiles` id equals the feature key. -/
theorem direct_ids_singleton_last (t : GNPSTable) (keys : List Int)
    (res : List (Int × List Nat)) (ids : List Int)
    (hids : exceptMapList parseRowId t.rows = Except.ok ids)
    (hres : prepareGnpsIdsDirect t keys = Except.ok res) :
    ∀ entry ∈ res, ∃ idx, entry.2 = [idx] ∧
      idx < t.rows.length ∧
      parseRowId (t.rows.getD idx default) = Except.ok entry.1 ∧
      (∀ j, idx < j → j < t.rows.length →
        parseRowId (t.rows.getD j default) ≠ Except.ok entry.1) := by
  intro entry hentry
  unfold prepareGnpsIdsDirect at hres
  rw [hids] at hres
  obtain ⟨k, hkmem, hk⟩ := exceptMapList_ok_mem _ keys res hres entry hentry
  rw [lookup_buildPosMapFrom] at hk
  cases hlast : lastIdxFrom ids 0 k with
  | none =>
    rw [hlast] at hk
    simp [List.lookup] at hk
  | some idx =>
    rw [hlast] at hk
    cases hk
    obtain ⟨hlen, hspec⟩ := exceptMapList_ok_spec parseRowId t.rows ids hids
    obtain ⟨n, hn1, hn2, hn3, hn4⟩ := lastIdxFrom_spec ids 0 k idx hlast
    have hn : n = idx := by omega
    rw [hn] at hn3 hn4
    have hidx : idx < t.rows.length := by omega
    refine ⟨idx, rfl, hidx, ?_, ?_⟩
    · rw [hspec idx hidx, hn3]
    · intro j h1 h2
      rw [hspec j h2]
      intro hcontra
      injection hcontra with h3
      exact hn4 j h1 (by omega) h3

/-- Witness for C10 at the sample table (ids 7, 8, 7) and feature keys 7
and 8: key 7 resolves to row 2, the later of the two rows with id 7. -/
theorem direct_ids_singleton_last_witness :
    exceptMapList parseRowId sampleTable.rows = Except.ok [7, 8, 7] ∧
    prepareGnpsIdsDirect sampleTable [7, 8] =
      Except.ok [(7, [2]), (8, [1])] ∧
    (∀ entry ∈ [((7 : Int), [2]), (8, [1])], ∃ idx, entry.2 = [idx] ∧
      idx < sampleTable.rows.length ∧
      parseRowId (sampleTable.rows.getD idx default) = Except.ok entry.1 ∧
      (∀ j, idx < j → j < sampleTable.rows.length →
        parseRowId (sampleTable.rows.getD j default) ≠ Except.ok entry.1)) := by
  refine ⟨rfl, rfl, ?_⟩
  exact direct_ids_singleton_last sampleTable [7, 8] [(7, [2]), (8, [1])] [7, 8, 7]
    rfl rfl

/-- C7: a compound identifier of the form prefix:id###suffix parses to its
middle integer token, and in direct-id mode a feature key with no
corresponding parsed reference id raises a `ValueError` instead of
yielding an empty match set. -/
theorem direct_ids_parse_and_missing (t : GNPSTable) (keys : List Int)
    (k : Int) (ids : List Int)
    (hids : exceptMapList parseRowId t.rows = Except.ok ids)
    (hk : k ∈ keys) (hmiss : k ∉ ids) :
    parseAllFilesId "abc:42###xyz" = some 42 ∧
    ∃ msg, prepareGnpsIdsDirect t keys = Except.error msg :=
  ⟨rfl, prepareDirect_missing_key_error t keys k ids hids hk hmiss⟩

/-- Witness for C7: key 42 is absent from the sample table's parsed ids. -/
theorem direct_ids_parse_and_missing_witness :
    ((42 : Int) ∈ [(42 : Int)]) ∧ ((42 : Int) ∉ [(7 : Int), 8, 7]) ∧
    (parseAllFilesId "abc:42###xyz" = some 42 ∧
      ∃ msg, prepareGnpsIdsDirect sampleTable [42] = Except.error msg) :=
  ⟨by decide, by decide,
    direct_ids_parse_and_missing sampleTable [42] 42 [7, 8, 7] rfl
      (by decide) (by decide)⟩

/-- C4 fails for the packaged `GNPS.__init__`: a missing reference table at
construction is logged and recovered with `gnps_data = None` — the
constructor returns normally instead of raising. -/
theorem init_missing_table_counterexample :
    gnpsInitPackage [] = InitResult.ok none true ∧
    (gnpsInitPackage []).isError = false :=
  ⟨rfl, rfl⟩

/-- C4 amended: the requested-field error of `get_feature_terms` and the
missing-key error of direct-id linking are raised to the caller, and a
missing reference table raises in the legacy module; but the packaged
module recovers from a missing reference table with a warning and a
disabled database (`gnps_data = None`) instead of raising. -/
theorem config_errors_raise (dbs meta2 : List (String × GNPSTable))
    (t : GNPSTable) (cache : List (String × List Nat)) (features : List String)
    (termType : String) (keys : List Int) (k : Int) (ids : List Int)
    (hdb : dbs.lookup "gnpscalour" = none)
    (hmeta : meta2.lookup "_calour_metabolomics_gnps_table" = none)
    (hcol : termType ∉ t.columns)
    (hids : exceptMapList parseRowId t.rows = Except.ok ids)
    (hk : k ∈ keys) (hmiss : k ∉ ids) :
    gnpsInitPackage dbs = InitResult.ok none true ∧
    (gnpsInitLegacy meta2).isError = true ∧
    (∃ msg, getFeatureTerms t cache features termType = Except.error msg) ∧
    (∃ msg, prepareGnpsIdsDirect t keys = Except.error msg) := by
  refine ⟨?_, ?_, ?_, ?_⟩
  · simp [gnpsInitPackage, hdb]
  · simp [gnpsInitLegacy, hmeta, InitResult.isError]
  · refine ⟨"term_type " ++ termType ++ " not a column in the gnps clusterinfo file.", ?_⟩
    simp [getFeatureTerms, hcol]
  · exact prepareDirect_missing_key_error t keys k ids hids hk hmiss

/-- Witness for C4 (amended) at concrete misconfigurations. -/
theorem config_errors_raise_witness :
    gnpsInitPackage [] = InitResult.ok none true ∧
    (gnpsInitLegacy []).isError = true ∧
    (∃ msg, getFeatureTerms sampleTable [] ["f1"] "zzz" = Except.error msg) ∧
    (∃ msg, prepareGnpsIdsDirect sampleTable [42] = Except.error msg) :=
  config_errors_raise [] [] sampleTable [] ["f1"] "zzz" [42] 42 [7, 8, 7]
    rfl rfl (by decide) rfl (by decide) (by decide)

/-- `get_annotation_website(annotation)`: the stored link with the fixed
query parameter appended, or `None` plus a warning when the annotation
dict has no gnps_link key. -/
def getAnnotationWebsite (ann : List (String × String)) :
    Option String × Bool :=
  match ann.lookup "gnps_link" with
  | none => (none, true)
  | some link => (some (link ++ "&show=True"), false)

/-- C9: a detail record with a link field resolves to the stored link with
the fixed query parameter appended; one without a link field resolves to
none with a warning, and no exception is raised (the embedding is a total
function). -/
theorem annotation_website_link (ann : List (String × String)) :
    (∀ link, ann.lookup "gnps_link" = some link →
      getAnnotationWebsite ann = (some (link ++ "&show=True"), false)) ∧
    (ann.lookup "gnps_link" = none →
      getAnnotationWebsite ann = (none, true)) := by
  constructor
  · intro link h
    simp [getAnnotationWebsite, h]
  · intro h
    simp [getAnnotationWebsite, h]

/-- Witness for C9 at a concrete detail record and at the empty record. -/
theorem annotation_website_link_witness :
    ((detailRecord "f" "http-a").lookup "gnps_link" = some "http-a") ∧
    getAnnotationWebsite (detailRecord "f" "http-a") =
      (some ("http-a" ++ "&show=True"), false) ∧
    getAnnotationWebsite [] = (none, true) :=
  ⟨rfl, (annotation_website_link (detailRecord "f" "http-a")).1 "http-a" rfl,
    (annotation_website_link []).2 rfl⟩

end GnpsCalour
